import Mathlib

/-!
Verification of the netlink-packet-audit codec layer.

Byte buffers are modelled as `List Nat` (each element one byte, values kept
below 256 by the writers).  Multi-byte integers are read and written in
native byte order, modelled here as little endian (the x86-64 target of the
crate).  Rust slice-index panics are modelled with `Option` (`none` means
the corresponding Rust code panics), decode errors with `DecodeResult`.

The first half of the file is definitions (translated from src/status.rs
and src/rules/rule.rs; collaborator pieces missing from the sources are
modelled from the specification and marked as such), the second half
theorems.
-/

namespace NetlinkAudit

/-- Read one byte of a buffer; out-of-range positions read as 0 (they are
never relied upon: every use is guarded by a length check mirrored from the
source). -/
def byteAt : List Nat → Nat → Nat
  | [], _ => 0
  | b :: _, 0 => b
  | _ :: bs, i + 1 => byteAt bs i

/-- Overwrite one byte of a buffer in place; out of range, the buffer is
returned unchanged. -/
def setByte : List Nat → Nat → Nat → List Nat
  | [], _, _ => []
  | _ :: bs, 0, v => v :: bs
  | b :: bs, i + 1, v => b :: setByte bs i v

/-- `NativeEndian::read_u32`: little-endian 32-bit read at a byte offset. -/
def readU32At (buf : List Nat) (off : Nat) : Nat :=
  byteAt buf off + 256 * byteAt buf (off + 1) + 65536 * byteAt buf (off + 2) +
    16777216 * byteAt buf (off + 3)

/-- `NativeEndian::write_u32`: little-endian 32-bit write at a byte offset
(the value is truncated to 32 bits byte by byte, as in the source's `as u32`
conversions). -/
def writeU32At (buf : List Nat) (off : Nat) (v : Nat) : List Nat :=
  setByte (setByte (setByte (setByte buf off (v % 256)) (off + 1) (v / 256 % 256))
    (off + 2) (v / 65536 % 256)) (off + 3) (v / 16777216 % 256)

/-- Bounds-checked 32-bit write: `none` models the Rust slice-index panic
when the 4-byte range does not fit in the buffer. -/
def writeU32Checked (buf : List Nat) (off v : Nat) : Option (List Nat) :=
  if off + 4 ≤ buf.length then some (writeU32At buf off v) else none

/-- Copy a byte string into the buffer starting at `off`
(`copy_from_slice`). -/
def writeBytes : List Nat → Nat → List Nat → List Nat
  | buf, _, [] => buf
  | buf, off, b :: bs => writeBytes (setByte buf off b) (off + 1) bs

/-- Bounds-checked byte-string copy: `none` models the Rust range-index
panic when `off + s.length` exceeds the buffer. -/
def writeBytesChecked (buf : List Nat) (off : Nat) (s : List Nat) :
    Option (List Nat) :=
  if off + s.length ≤ buf.length then some (writeBytes buf off s) else none

/-- Rust `Result<T, DecodeError>`, with the error carrying the formatted
message (the crate's `DecodeError` wraps a string). -/
inductive DecodeResult (α : Type) where
  | ok : α → DecodeResult α
  | error : String → DecodeResult α
deriving DecidableEq

/-!
## Status codec (src/status.rs)

Field offsets from src/status.rs:
MASK 0..4, ENABLED 4..8, FAILURE 8..12, PID 12..16, RATE_LIMITING 16..20,
BACKLOG_LIMIT 20..24, LOST 24..28, BACKLOG 28..32,
MINIMAL_STATUS_MESSAGE_LEN = 32, FEATURE_BITMAP 32..36,
BACKLOG_WAIT_TIME 36..40, BACKLOG_WAIT_TIME_ACTUAL 36..40 (the same range),
MAXIMAL_STATUS_MESSAGE_LEN = 40.
-/

def MINIMAL_STATUS_MESSAGE_LEN : Nat := 32

def MAXIMAL_STATUS_MESSAGE_LEN : Nat := 40

structure StatusMessage where
  mask : Nat
  enabled : Nat
  failure : Nat
  pid : Nat
  rate_limiting : Nat
  backlog_limit : Nat
  lost : Nat
  backlog : Nat
  feature_bitmap : Option Nat
  backlog_wait_time : Option Nat
  backlog_wait_time_actual : Option Nat
deriving DecidableEq

namespace StatusMessageBuffer

def set_mask (buf : List Nat) (v : Nat) : List Nat := writeU32At buf 0 v

def set_enabled (buf : List Nat) (v : Nat) : List Nat := writeU32At buf 4 v

def set_failure (buf : List Nat) (v : Nat) : List Nat := writeU32At buf 8 v

def set_pid (buf : List Nat) (v : Nat) : List Nat := writeU32At buf 12 v

def set_rate_limiting (buf : List Nat) (v : Nat) : List Nat := writeU32At buf 16 v

def set_backlog_limit (buf : List Nat) (v : Nat) : List Nat := writeU32At buf 20 v

def set_lost (buf : List Nat) (v : Nat) : List Nat := writeU32At buf 24 v

def set_backlog (buf : List Nat) (v : Nat) : List Nat := writeU32At buf 28 v

/-- `set_feature_bitmap`: writes FEATURE_BITMAP (32..36) only if the buffer
reaches its end offset; otherwise does nothing. -/
def set_feature_bitmap (buf : List Nat) (v : Nat) : List Nat :=
  if 36 ≤ buf.length then writeU32At buf 32 v else buf

/-- `set_backlog_wait_time`: writes BACKLOG_WAIT_TIME (36..40) only if the
buffer reaches its end offset; otherwise does nothing. -/
def set_backlog_wait_time (buf : List Nat) (v : Nat) : List Nat :=
  if 40 ≤ buf.length then writeU32At buf 36 v else buf

/-- `set_backlog_wait_time_actual`: writes BACKLOG_WAIT_TIME_ACTUAL (36..40,
the same range as BACKLOG_WAIT_TIME) only if the buffer reaches its end
offset; otherwise does nothing. -/
def set_backlog_wait_time_actual (buf : List Nat) (v : Nat) : List Nat :=
  if 40 ≤ buf.length then writeU32At buf 36 v else buf

/-- Optional getter `feature_bitmap`. -/
def feature_bitmap (buf : List Nat) : Option Nat :=
  if buf.length < 36 then none else some (readU32At buf 32)

/-- Optional getter `backlog_wait_time` (reads 36..40). -/
def backlog_wait_time (buf : List Nat) : Option Nat :=
  if buf.length < 40 then none else some (readU32At buf 36)

/-- Optional getter `backlog_wait_time_actual` (also reads 36..40). -/
def backlog_wait_time_actual (buf : List Nat) : Option Nat :=
  if buf.length < 40 then none else some (readU32At buf 36)

end StatusMessageBuffer

namespace StatusMessage

/-- `<StatusMessage as Parseable>::parse`, with `check_buffer_length`
inlined: error when the buffer is shorter than MINIMAL_STATUS_MESSAGE_LEN,
otherwise read the 8 mandatory fields unconditionally and the optional
fields through the length-guarded getters. -/
def parse (buf : List Nat) : DecodeResult StatusMessage :=
  if buf.length < MINIMAL_STATUS_MESSAGE_LEN then
    .error "invalid StatusMessageBuffer buffer: too short"
  else
    .ok
      { mask := readU32At buf 0
        enabled := readU32At buf 4
        failure := readU32At buf 8
        pid := readU32At buf 12
        rate_limiting := readU32At buf 16
        backlog_limit := readU32At buf 20
        lost := readU32At buf 24
        backlog := readU32At buf 28
        feature_bitmap := StatusMessageBuffer.feature_bitmap buf
        backlog_wait_time := StatusMessageBuffer.backlog_wait_time buf
        backlog_wait_time_actual :=
          StatusMessageBuffer.backlog_wait_time_actual buf }

/-- `<StatusMessage as Emitable>::buffer_len`: always the maximal layout. -/
def buffer_len (_ : StatusMessage) : Nat := MAXIMAL_STATUS_MESSAGE_LEN

/-- The eight unconditional mandatory writes of `emit`, in source order. -/
def emitMandatory (m : StatusMessage) (buffer : List Nat) : List Nat :=
  StatusMessageBuffer.set_backlog
    (StatusMessageBuffer.set_lost
      (StatusMessageBuffer.set_backlog_limit
        (StatusMessageBuffer.set_rate_limiting
          (StatusMessageBuffer.set_pid
            (StatusMessageBuffer.set_failure
              (StatusMessageBuffer.set_enabled
                (StatusMessageBuffer.set_mask buffer m.mask) m.enabled)
              m.failure) m.pid) m.rate_limiting) m.backlog_limit) m.lost)
    m.backlog

/-- `if let Some(feature_bitmap) = self.feature_bitmap { ... }`. -/
def emitFeature (m : StatusMessage) (b : List Nat) : List Nat :=
  match m.feature_bitmap with
  | some v => StatusMessageBuffer.set_feature_bitmap b v
  | none => b

/-- `if let Some(backlog_wait_time) = self.backlog_wait_time { ... }`. -/
def emitWaitTime (m : StatusMessage) (b : List Nat) : List Nat :=
  match m.backlog_wait_time with
  | some v => StatusMessageBuffer.set_backlog_wait_time b v
  | none => b

/-- `if let Some(backlog_wait_time_actual) = ... { ... }`. -/
def emitWaitTimeActual (m : StatusMessage) (b : List Nat) : List Nat :=
  match m.backlog_wait_time_actual with
  | some v => StatusMessageBuffer.set_backlog_wait_time_actual b v
  | none => b

/-- `<StatusMessage as Emitable>::emit`: write the 8 mandatory fields, then
each optional field only when present, in source order. -/
def emit (m : StatusMessage) (buffer : List Nat) : List Nat :=
  emitWaitTimeActual m (emitWaitTime m (emitFeature m (emitMandatory m buffer)))

end StatusMessage

/-!
## Rule codec (src/rules/rule.rs)

The rule field vocabulary, buffer layout and numeric constants live in
repository modules that are not among the provided sources
(src/rules/mod.rs siblings and src/constants.rs); they are modelled from
the specification below.  The `RuleMessage` logic itself (field
classification, length computation, emission loop, `set_str_field`) is
translated from src/rules/rule.rs.
-/

/-- Modelled from the spec: the external "maximum field count" constant of
the numeric vocabulary (src/constants.rs is not among the sources); the
Linux uapi value AUDIT_MAX_FIELDS = 64. -/
def AUDIT_MAX_FIELDS : Nat := 64

/-- Modelled from the spec: the external "syscall-bitmask word count"
constant (src/constants.rs is not among the sources); the Linux uapi value
AUDIT_BITMASK_SIZE = 64. -/
def AUDIT_BITMASK_SIZE : Nat := 64

def AUDIT_PID : Nat := 0

def AUDIT_UID : Nat := 1

def AUDIT_EUID : Nat := 2

def AUDIT_SUID : Nat := 3

def AUDIT_FSUID : Nat := 4

def AUDIT_GID : Nat := 5

def AUDIT_EGID : Nat := 6

def AUDIT_SGID : Nat := 7

def AUDIT_FSGID : Nat := 8

def AUDIT_LOGINUID : Nat := 9

def AUDIT_PERS : Nat := 10

def AUDIT_ARCH : Nat := 11

def AUDIT_MSGTYPE : Nat := 12

def AUDIT_SUBJ_USER : Nat := 13

def AUDIT_SUBJ_ROLE : Nat := 14

def AUDIT_SUBJ_TYPE : Nat := 15

def AUDIT_SUBJ_SEN : Nat := 16

def AUDIT_SUBJ_CLR : Nat := 17

def AUDIT_PPID : Nat := 18

def AUDIT_OBJ_USER : Nat := 19

def AUDIT_OBJ_ROLE : Nat := 20

def AUDIT_OBJ_TYPE : Nat := 21

def AUDIT_OBJ_LEV_LOW : Nat := 22

def AUDIT_OBJ_LEV_HIGH : Nat := 23

def AUDIT_LOGINUID_SET : Nat := 24

def AUDIT_SESSIONID : Nat := 25

def AUDIT_FSTYPE : Nat := 26

def AUDIT_DEVMAJOR : Nat := 100

def AUDIT_DEVMINOR : Nat := 101

def AUDIT_INODE : Nat := 102

def AUDIT_EXIT : Nat := 103

def AUDIT_SUCCESS : Nat := 104

def AUDIT_WATCH : Nat := 105

def AUDIT_PERM : Nat := 106

def AUDIT_DIR : Nat := 107

def AUDIT_FILETYPE : Nat := 108

def AUDIT_OBJ_UID : Nat := 109

def AUDIT_OBJ_GID : Nat := 110

def AUDIT_FIELD_COMPARE : Nat := 111

def AUDIT_EXE : Nat := 112

def AUDIT_ARG0 : Nat := 200

def AUDIT_ARG1 : Nat := 201

def AUDIT_ARG2 : Nat := 202

def AUDIT_ARG3 : Nat := 203

def AUDIT_FILTERKEY : Nat := 210

/-- The rule field vocabulary.  The variant set is taken from the
exhaustive match in `<RuleMessage as Emitable>::emit` (src/rules/rule.rs):
13 string-valued variants and 32 integer-valued variants.  String payloads
are byte lists (Rust `String`, whose `len()` is its byte length). -/
inductive RuleField where
  | watch : List Nat → RuleField
  | dir : List Nat → RuleField
  | filterkey : List Nat → RuleField
  | subjUser : List Nat → RuleField
  | subjRole : List Nat → RuleField
  | subjType : List Nat → RuleField
  | subjSen : List Nat → RuleField
  | subjClr : List Nat → RuleField
  | objUser : List Nat → RuleField
  | objRole : List Nat → RuleField
  | objType : List Nat → RuleField
  | objLevLow : List Nat → RuleField
  | objLevHigh : List Nat → RuleField
  | pid : Nat → RuleField
  | uid : Nat → RuleField
  | euid : Nat → RuleField
  | suid : Nat → RuleField
  | fsuid : Nat → RuleField
  | gid : Nat → RuleField
  | egid : Nat → RuleField
  | sgid : Nat → RuleField
  | fsgid : Nat → RuleField
  | loginuid : Nat → RuleField
  | pers : Nat → RuleField
  | arch : Nat → RuleField
  | msgtype : Nat → RuleField
  | ppid : Nat → RuleField
  | loginuidSet : Nat → RuleField
  | sessionid : Nat → RuleField
  | fstype : Nat → RuleField
  | devmajor : Nat → RuleField
  | devminor : Nat → RuleField
  | inode : Nat → RuleField
  | exit : Nat → RuleField
  | success : Nat → RuleField
  | perm : Nat → RuleField
  | filetype : Nat → RuleField
  | objUid : Nat → RuleField
  | objGid : Nat → RuleField
  | fieldCompare : Nat → RuleField
  | exe : Nat → RuleField
  | arg0 : Nat → RuleField
  | arg1 : Nat → RuleField
  | arg2 : Nat → RuleField
  | arg3 : Nat → RuleField
deriving DecidableEq

/-- `RuleMessage`: flags word, action code, ordered `(field, field-flags)`
pairs, and the syscall bitmask words (`RuleSyscalls`). -/
structure RuleMessage where
  flags : Nat
  action : Nat
  fields : List (RuleField × Nat)
  syscalls : List Nat
deriving DecidableEq

/-- The 13 string-valued variants of `compute_string_values_length`
(src/rules/rule.rs lines 39-63) contribute their byte length; every other
variant contributes nothing. -/
def stringLenOfField : RuleField → Nat
  | .watch s | .dir s | .filterkey s | .subjUser s | .subjRole s
  | .subjType s | .subjSen s | .subjClr s | .objUser s | .objRole s
  | .objType s | .objLevLow s | .objLevHigh s => s.length
  | _ => 0

/-- `RuleMessage::compute_string_values_length`: total byte length of all
string-valued fields, accumulated over the field list in order. -/
def computeStringValuesLength : List (RuleField × Nat) → Nat
  | [] => 0
  | (f, _) :: rest => stringLenOfField f + computeStringValuesLength rest

/-!
Modelled from the spec: the `RuleBuffer` layout (src/rules/buffer.rs is not
among the sources).  Wire layout from spec section 6, with the
fixed-maximum-capacity descriptor table of spec section 4.4:
flags 0..4, action 4..8, field_count 8..12,
syscall bitmask 12..12+4*AUDIT_BITMASK_SIZE = 12..268, buflen 268..272,
then AUDIT_MAX_FIELDS descriptor slots of 12 bytes each
(field_type_code, value_or_length, field_flags), so slot `i` holds its code
at 272+12i, its value at 276+12i and its flags at 280+12i; the string pool
starts at RULE_BUF_MIN_LEN = 272 + 12*AUDIT_MAX_FIELDS = 1040.
-/

/-- Modelled from the spec: the fixed minimum rule-buffer length (header +
bitmask + buflen word + maximum-capacity descriptor table). -/
def RULE_BUF_MIN_LEN : Nat := 272 + 12 * AUDIT_MAX_FIELDS

namespace RuleBuffer

/-- Modelled from the spec: write the flags header word. -/
def set_flags (buf : List Nat) (v : Nat) : Option (List Nat) :=
  writeU32Checked buf 0 v

/-- Modelled from the spec: write the action header word. -/
def set_action (buf : List Nat) (v : Nat) : Option (List Nat) :=
  writeU32Checked buf 4 v

/-- Modelled from the spec: write the field_count header word. -/
def set_field_count (buf : List Nat) (v : Nat) : Option (List Nat) :=
  writeU32Checked buf 8 v

/-- Modelled from the spec: write the aggregate string-pool length word. -/
def set_buflen (buf : List Nat) (v : Nat) : Option (List Nat) :=
  writeU32Checked buf 268 v

/-- Modelled from the spec: write descriptor slot `i`'s field-type code. -/
def set_field (buf : List Nat) (i code : Nat) : Option (List Nat) :=
  writeU32Checked buf (272 + 12 * i) code

/-- Modelled from the spec: write descriptor slot `i`'s value-or-length. -/
def set_value (buf : List Nat) (i v : Nat) : Option (List Nat) :=
  writeU32Checked buf (276 + 12 * i) v

/-- Modelled from the spec: write descriptor slot `i`'s field flag bits. -/
def set_field_flags (buf : List Nat) (i v : Nat) : Option (List Nat) :=
  writeU32Checked buf (280 + 12 * i) v

end RuleBuffer

/-- `set_str_field` (src/rules/rule.rs lines 66-80): append the string to
the string pool at the running cursor (the pool region starts at
RULE_BUF_MIN_LEN, modelled from the spec), store the string's byte length
in the field's value slot, and advance the cursor by that length. -/
def set_str_field (buf : List Nat) (position cursor : Nat) (s : List Nat) :
    Option (List Nat × Nat) :=
  (writeBytesChecked buf (RULE_BUF_MIN_LEN + cursor) s).bind fun b =>
    (RuleBuffer.set_value b position s.length).map fun b2 =>
      (b2, cursor + s.length)

/-- One integer-valued arm of the emit match: `set_field` with the
variant's code, then `set_value` with its integer payload; the string
cursor is unchanged. -/
def emitIntArm (buf : List Nat) (i c code v : Nat) : Option (List Nat × Nat) :=
  (RuleBuffer.set_field buf i code).bind fun b =>
    (RuleBuffer.set_value b i v).map fun b2 => (b2, c)

/-- One string-valued arm of the emit match: `set_field` with the variant's
code, then `set_str_field`. -/
def emitStrArm (buf : List Nat) (i c code : Nat) (s : List Nat) :
    Option (List Nat × Nat) :=
  (RuleBuffer.set_field buf i code).bind fun b => set_str_field b i c s

/-- The per-field match of `<RuleMessage as Emitable>::emit`
(src/rules/rule.rs lines 106-287), one arm per variant. -/
def emitField (buf : List Nat) (i c : Nat) : RuleField → Option (List Nat × Nat)
  | .watch s => emitStrArm buf i c AUDIT_WATCH s
  | .dir s => emitStrArm buf i c AUDIT_DIR s
  | .filterkey s => emitStrArm buf i c AUDIT_FILTERKEY s
  | .subjUser s => emitStrArm buf i c AUDIT_SUBJ_USER s
  | .subjRole s => emitStrArm buf i c AUDIT_SUBJ_ROLE s
  | .subjType s => emitStrArm buf i c AUDIT_SUBJ_TYPE s
  | .subjSen s => emitStrArm buf i c AUDIT_SUBJ_SEN s
  | .subjClr s => emitStrArm buf i c AUDIT_SUBJ_CLR s
  | .objUser s => emitStrArm buf i c AUDIT_OBJ_USER s
  | .objRole s => emitStrArm buf i c AUDIT_OBJ_ROLE s
  | .objType s => emitStrArm buf i c AUDIT_OBJ_TYPE s
  | .objLevLow s => emitStrArm buf i c AUDIT_OBJ_LEV_LOW s
  | .objLevHigh s => emitStrArm buf i c AUDIT_OBJ_LEV_HIGH s
  | .pid v => emitIntArm buf i c AUDIT_PID v
  | .uid v => emitIntArm buf i c AUDIT_UID v
  | .euid v => emitIntArm buf i c AUDIT_EUID v
  | .suid v => emitIntArm buf i c AUDIT_SUID v
  | .fsuid v => emitIntArm buf i c AUDIT_FSUID v
  | .gid v => emitIntArm buf i c AUDIT_GID v
  | .egid v => emitIntArm buf i c AUDIT_EGID v
  | .sgid v => emitIntArm buf i c AUDIT_SGID v
  | .fsgid v => emitIntArm buf i c AUDIT_FSGID v
  | .loginuid v => emitIntArm buf i c AUDIT_LOGINUID v
  | .pers v => emitIntArm buf i c AUDIT_PERS v
  | .arch v => emitIntArm buf i c AUDIT_ARCH v
  | .msgtype v => emitIntArm buf i c AUDIT_MSGTYPE v
  | .ppid v => emitIntArm buf i c AUDIT_PPID v
  | .loginuidSet v => emitIntArm buf i c AUDIT_LOGINUID_SET v
  | .sessionid v => emitIntArm buf i c AUDIT_SESSIONID v
  | .fstype v => emitIntArm buf i c AUDIT_FSTYPE v
  | .devmajor v => emitIntArm buf i c AUDIT_DEVMAJOR v
  | .devminor v => emitIntArm buf i c AUDIT_DEVMINOR v
  | .inode v => emitIntArm buf i c AUDIT_INODE v
  | .exit v => emitIntArm buf i c AUDIT_EXIT v
  | .success v => emitIntArm buf i c AUDIT_SUCCESS v
  | .perm v => emitIntArm buf i c AUDIT_PERM v
  | .filetype v => emitIntArm buf i c AUDIT_FILETYPE v
  | .objUid v => emitIntArm buf i c AUDIT_OBJ_UID v
  | .objGid v => emitIntArm buf i c AUDIT_OBJ_GID v
  | .fieldCompare v => emitIntArm buf i c AUDIT_FIELD_COMPARE v
  | .exe v => emitIntArm buf i c AUDIT_EXE v
  | .arg0 v => emitIntArm buf i c AUDIT_ARG0 v
  | .arg1 v => emitIntArm buf i c AUDIT_ARG1 v
  | .arg2 v => emitIntArm buf i c AUDIT_ARG2 v
  | .arg3 v => emitIntArm buf i c AUDIT_ARG3 v

/-- The emission loop over the field list (src/rules/rule.rs lines
104-288): for the field at index `i`, write its flag bits into the
descriptor slot, then run the per-field match; the string-pool cursor
(`buflen` in the source) is threaded through. -/
def emitFields : List (RuleField × Nat) → Nat → List Nat → Nat →
    Option (List Nat × Nat)
  | [], _, buf, cursor => some (buf, cursor)
  | (f, fl) :: rest, i, buf, cursor =>
    (RuleBuffer.set_field_flags buf i fl).bind fun b =>
      (emitField b i cursor f).bind fun p => emitFields rest (i + 1) p.1 p.2

/-- The syscall bitmask write loop: word `i` is written at offset `4*i`
inside the 4*AUDIT_BITMASK_SIZE-byte bitmask region starting at offset 12
(`none` models the panic when a word falls outside the region). -/
def emitSyscallsAux : List Nat → Nat → List Nat → Option (List Nat)
  | [], _, buf => some buf
  | w :: ws, i, buf =>
    if 4 * i + 4 ≤ 4 * AUDIT_BITMASK_SIZE then
      (writeU32Checked buf (12 + 4 * i) w).bind (emitSyscallsAux ws (i + 1))
    else none

/-- The bitmask region is `buffer[12..12+4*AUDIT_BITMASK_SIZE]`; taking the
slice itself panics when the buffer is shorter than the region's end. -/
def emitSyscalls (buf : List Nat) (ws : List Nat) : Option (List Nat) :=
  if 12 + 4 * AUDIT_BITMASK_SIZE ≤ buf.length then emitSyscallsAux ws 0 buf
  else none

namespace RuleMessage

/-- `RuleMessage::compute_string_values_length` as a method. -/
def compute_string_values_length (m : RuleMessage) : Nat :=
  computeStringValuesLength m.fields

/-- `<RuleMessage as Emitable>::buffer_len`:
`RULE_BUF_MIN_LEN + compute_string_values_length`. -/
def buffer_len (m : RuleMessage) : Nat :=
  RULE_BUF_MIN_LEN + computeStringValuesLength m.fields

/-- `<RuleMessage as Emitable>::emit`, returning the final buffer together
with the final string-pool cursor (`buflen` in the source): write flags,
action, field count, the syscall bitmask words and the aggregate
string-pool length, then run the emission loop from cursor 0. -/
def emitAux (m : RuleMessage) (buffer : List Nat) : Option (List Nat × Nat) :=
  (RuleBuffer.set_flags buffer m.flags).bind fun b =>
    (RuleBuffer.set_action b m.action).bind fun b =>
      (RuleBuffer.set_field_count b m.fields.length).bind fun b =>
        (emitSyscalls b m.syscalls).bind fun b =>
          (RuleBuffer.set_buflen b
              (computeStringValuesLength m.fields)).bind fun b =>
            emitFields m.fields 0 b 0

/-- `<RuleMessage as Emitable>::emit` (the cursor is a local of the source
function and is dropped on return). -/
def emit (m : RuleMessage) (buffer : List Nat) : Option (List Nat) :=
  (m.emitAux buffer).map Prod.fst

end RuleMessage

/-- Modelled from the spec, for comparison with the source's `buffer_len`:
encode step 1 of spec section 4.4 computes "fixed header size + syscall
bitmask size + (descriptor slot size × field count) + sum of byte-lengths
of all string-valued fields", with the section 6 sizes (header words
flags, action, field_count, buflen = 16 bytes; descriptor slot = 12
bytes). -/
def specRuleBufferLen (m : RuleMessage) : Nat :=
  16 + 4 * AUDIT_BITMASK_SIZE + 12 * m.fields.length +
    (m.fields.map (fun p => stringLenOfField p.1)).sum

/-!
## Concrete messages used by individual claims
-/

/-- All three optional status fields present, with distinct wait-time
values. -/
def c1msg : StatusMessage :=
  ⟨0, 0, 0, 0, 0, 0, 0, 0, some 0, some 1, some 2⟩

/-- A rule with exactly AUDIT_MAX_FIELDS integer fields. -/
def c2msgMax : RuleMessage :=
  ⟨0, 0, List.replicate 64 (RuleField.pid 0, 0), List.replicate 64 0⟩

/-- A rule with AUDIT_MAX_FIELDS + 1 integer fields. -/
def c2msgOver : RuleMessage :=
  ⟨0, 0, List.replicate 65 (RuleField.pid 0, 0), List.replicate 64 0⟩

/-- A rule with two integer fields and no string fields. -/
def c3msg : RuleMessage :=
  ⟨0, 0, [(RuleField.pid 1, 0), (RuleField.uid 2, 0)], List.replicate 64 0⟩

/-- The bytes of "audit-wazuh". -/
def auditWazuhBytes : List Nat :=
  [97, 117, 100, 105, 116, 45, 119, 97, 122, 117, 104]

/-- The bytes of "/etc". -/
def etcBytes : List Nat := [47, 101, 116, 99]

/-- The rule of the string-pool integrity scenario:
fields [Filterkey("audit-wazuh"), Dir("/etc")]. -/
def c4msg : RuleMessage :=
  ⟨0, 0, [(RuleField.filterkey auditWazuhBytes, 0), (RuleField.dir etcBytes, 0)],
    List.replicate 64 0⟩

/-- A rule with one three-byte string field, for witnessing the cursor
invariant. -/
def c9msg : RuleMessage :=
  ⟨0, 0, [(RuleField.filterkey [107, 101, 121], 0)], List.replicate 64 0⟩

def c9buffer : List Nat := List.replicate 1043 0

/-- The result of emitting `c9msg` (buffer and final cursor). -/
def c9result : List Nat × Nat :=
  (RuleMessage.emitAux c9msg c9buffer).getD ([], 0)

/-- The parse of an all-zero maximal status buffer, for witnessing the
wait-time aliasing invariant. -/
def c8msg : StatusMessage :=
  ⟨0, 0, 0, 0, 0, 0, 0, 0, some 0, some 0, some 0⟩

/-!
## Lemmas about the byte-buffer primitives
-/

theorem length_setByte (buf : List Nat) (i v : Nat) :
    (setByte buf i v).length = buf.length := by
  induction buf generalizing i with
  | nil => rfl
  | cons b bs ih =>
    cases i with
    | zero => rfl
    | succ j => simpa [setByte] using ih j

theorem byteAt_setByte_self (buf : List Nat) (i v : Nat) (h : i < buf.length) :
    byteAt (setByte buf i v) i = v := by
  induction buf generalizing i with
  | nil => simp at h
  | cons b bs ih =>
    cases i with
    | zero => rfl
    | succ j =>
      simp only [setByte, byteAt]
      exact ih j (by simpa using h)

theorem byteAt_setByte_ne (buf : List Nat) (i j v : Nat) (h : i ≠ j) :
    byteAt (setByte buf i v) j = byteAt buf j := by
  induction buf generalizing i j with
  | nil => rfl
  | cons b bs ih =>
    cases i with
    | zero =>
      cases j with
      | zero => exact absurd rfl h
      | succ j => rfl
    | succ i =>
      cases j with
      | zero => rfl
      | succ j =>
        simp only [setByte, byteAt]
        exact ih i j (by omega)

theorem length_writeU32At (buf : List Nat) (off v : Nat) :
    (writeU32At buf off v).length = buf.length := by
  simp [writeU32At, length_setByte]

theorem byteAt_writeU32At_outside (buf : List Nat) (off v j : Nat)
    (h : j < off ∨ off + 4 ≤ j) :
    byteAt (writeU32At buf off v) j = byteAt buf j := by
  unfold writeU32At
  rw [byteAt_setByte_ne _ _ _ _ (by omega), byteAt_setByte_ne _ _ _ _ (by omega),
    byteAt_setByte_ne _ _ _ _ (by omega), byteAt_setByte_ne _ _ _ _ (by omega)]

theorem byteAt_writeU32At_b0 (buf : List Nat) (off v : Nat) (h : off < buf.length) :
    byteAt (writeU32At buf off v) off = v % 256 := by
  unfold writeU32At
  rw [byteAt_setByte_ne _ _ _ _ (by omega), byteAt_setByte_ne _ _ _ _ (by omega),
    byteAt_setByte_ne _ _ _ _ (by omega), byteAt_setByte_self _ _ _ (by omega)]

theorem byteAt_writeU32At_b1 (buf : List Nat) (off v : Nat)
    (h : off + 1 < buf.length) :
    byteAt (writeU32At buf off v) (off + 1) = v / 256 % 256 := by
  unfold writeU32At
  rw [byteAt_setByte_ne _ _ _ _ (by omega), byteAt_setByte_ne _ _ _ _ (by omega),
    byteAt_setByte_self _ _ _ (by simp only [length_setByte]; omega)]

theorem byteAt_writeU32At_b2 (buf : List Nat) (off v : Nat)
    (h : off + 2 < buf.length) :
    byteAt (writeU32At buf off v) (off + 2) = v / 65536 % 256 := by
  unfold writeU32At
  rw [byteAt_setByte_ne _ _ _ _ (by omega),
    byteAt_setByte_self _ _ _ (by simp only [length_setByte]; omega)]

theorem byteAt_writeU32At_b3 (buf : List Nat) (off v : Nat)
    (h : off + 3 < buf.length) :
    byteAt (writeU32At buf off v) (off + 3) = v / 16777216 % 256 := by
  unfold writeU32At
  rw [byteAt_setByte_self _ _ _ (by simp only [length_setByte]; omega)]

theorem readU32At_writeU32At_self (buf : List Nat) (off v : Nat)
    (h : off + 4 ≤ buf.length) :
    readU32At (writeU32At buf off v) off = v % 4294967296 := by
  unfold readU32At
  rw [byteAt_writeU32At_b0 _ _ _ (by omega), byteAt_writeU32At_b1 _ _ _ (by omega),
    byteAt_writeU32At_b2 _ _ _ (by omega), byteAt_writeU32At_b3 _ _ _ (by omega)]
  omega

theorem readU32At_writeU32At_outside (buf : List Nat) (off v j : Nat)
    (h : j + 4 ≤ off ∨ off + 4 ≤ j) :
    readU32At (writeU32At buf off v) j = readU32At buf j := by
  unfold readU32At
  rw [byteAt_writeU32At_outside _ _ _ _ (by omega),
    byteAt_writeU32At_outside _ _ _ _ (by omega),
    byteAt_writeU32At_outside _ _ _ _ (by omega),
    byteAt_writeU32At_outside _ _ _ _ (by omega)]

theorem byteAt_writeBytes_outside (s buf : List Nat) (off j : Nat)
    (h : j < off ∨ off + s.length ≤ j) :
    byteAt (writeBytes buf off s) j = byteAt buf j := by
  induction s generalizing buf off with
  | nil => rfl
  | cons b bs ih =>
    simp only [writeBytes]
    rw [ih _ _ (by simp at h ⊢; omega), byteAt_setByte_ne _ _ _ _ (by simp at h; omega)]

/-!
## Status-codec lemmas and claims
-/

theorem byteAt_set_feature_bitmap_outside (buf : List Nat) (v j : Nat)
    (h : j < 32 ∨ 36 ≤ j) :
    byteAt (StatusMessageBuffer.set_feature_bitmap buf v) j = byteAt buf j := by
  unfold StatusMessageBuffer.set_feature_bitmap
  split
  · exact byteAt_writeU32At_outside _ _ _ _ (by omega)
  · rfl

theorem byteAt_set_backlog_wait_time_outside (buf : List Nat) (v j : Nat)
    (h : j < 36 ∨ 40 ≤ j) :
    byteAt (StatusMessageBuffer.set_backlog_wait_time buf v) j = byteAt buf j := by
  unfold StatusMessageBuffer.set_backlog_wait_time
  split
  · exact byteAt_writeU32At_outside _ _ _ _ (by omega)
  · rfl

theorem byteAt_set_backlog_wait_time_actual_outside (buf : List Nat) (v j : Nat)
    (h : j < 36 ∨ 40 ≤ j) :
    byteAt (StatusMessageBuffer.set_backlog_wait_time_actual buf v) j = byteAt buf j := by
  unfold StatusMessageBuffer.set_backlog_wait_time_actual
  split
  · exact byteAt_writeU32At_outside _ _ _ _ (by omega)
  · rfl

/-- The eight mandatory writes of `emit` only touch bytes 0..32. -/
theorem byteAt_emitMandatory_outside (m : StatusMessage) (buf : List Nat)
    (j : Nat) (h : 32 ≤ j) :
    byteAt (StatusMessage.emitMandatory m buf) j = byteAt buf j := by
  unfold StatusMessage.emitMandatory
  unfold StatusMessageBuffer.set_backlog StatusMessageBuffer.set_lost
    StatusMessageBuffer.set_backlog_limit StatusMessageBuffer.set_rate_limiting
    StatusMessageBuffer.set_pid StatusMessageBuffer.set_failure
    StatusMessageBuffer.set_enabled StatusMessageBuffer.set_mask
  rw [byteAt_writeU32At_outside _ _ _ _ (by omega),
    byteAt_writeU32At_outside _ _ _ _ (by omega),
    byteAt_writeU32At_outside _ _ _ _ (by omega),
    byteAt_writeU32At_outside _ _ _ _ (by omega),
    byteAt_writeU32At_outside _ _ _ _ (by omega),
    byteAt_writeU32At_outside _ _ _ _ (by omega),
    byteAt_writeU32At_outside _ _ _ _ (by omega),
    byteAt_writeU32At_outside _ _ _ _ (by omega)]

/-- The feature-bitmap step only touches bytes 32..36, whichever branch the
option takes. -/
theorem byteAt_emitFeature_outside (m : StatusMessage) (b : List Nat) (j : Nat)
    (h : j < 32 ∨ 36 ≤ j) :
    byteAt (StatusMessage.emitFeature m b) j = byteAt b j := by
  unfold StatusMessage.emitFeature
  cases m.feature_bitmap with
  | none => rfl
  | some v => exact byteAt_set_feature_bitmap_outside _ _ _ h

/-- The backlog-wait-time step only touches bytes 36..40. -/
theorem byteAt_emitWaitTime_outside (m : StatusMessage) (b : List Nat) (j : Nat)
    (h : j < 36 ∨ 40 ≤ j) :
    byteAt (StatusMessage.emitWaitTime m b) j = byteAt b j := by
  unfold StatusMessage.emitWaitTime
  cases m.backlog_wait_time with
  | none => rfl
  | some v => exact byteAt_set_backlog_wait_time_outside _ _ _ h

/-- The backlog-wait-time-actual step only touches bytes 36..40. -/
theorem byteAt_emitWaitTimeActual_outside (m : StatusMessage) (b : List Nat)
    (j : Nat) (h : j < 36 ∨ 40 ≤ j) :
    byteAt (StatusMessage.emitWaitTimeActual m b) j = byteAt b j := by
  unfold StatusMessage.emitWaitTimeActual
  cases m.backlog_wait_time_actual with
  | none => rfl
  | some v => exact byteAt_set_backlog_wait_time_actual_outside _ _ _ h

theorem emitFeature_none (m : StatusMessage) (b : List Nat)
    (h : m.feature_bitmap = none) : StatusMessage.emitFeature m b = b := by
  unfold StatusMessage.emitFeature
  rw [h]

theorem emitWaitTime_none (m : StatusMessage) (b : List Nat)
    (h : m.backlog_wait_time = none) : StatusMessage.emitWaitTime m b = b := by
  unfold StatusMessage.emitWaitTime
  rw [h]

theorem emitWaitTimeActual_none (m : StatusMessage) (b : List Nat)
    (h : m.backlog_wait_time_actual = none) :
    StatusMessage.emitWaitTimeActual m b = b := by
  unfold StatusMessage.emitWaitTimeActual
  rw [h]

/-- C1.  Both optional wait-time fields live at byte range 36..40, so
emitting a `StatusMessage` whose `backlog_wait_time` (1) differs from its
`backlog_wait_time_actual` (2) lets the second write clobber the first, and
parsing the emitted 40-byte buffer returns both fields as 2: the claimed
round-trip `parse (emit m) = m` fails at this input. -/
theorem c1_status_roundtrip_loses_backlog_wait_time :
    StatusMessage.parse (c1msg.emit (List.replicate c1msg.buffer_len 0)) =
      .ok ⟨0, 0, 0, 0, 0, 0, 0, 0, some 0, some 2, some 2⟩ ∧
    StatusMessage.parse (c1msg.emit (List.replicate c1msg.buffer_len 0)) ≠
      .ok c1msg := by
  constructor
  · rfl
  · decide

/-- C5.  Parsing any 32-byte status buffer succeeds with all three optional
fields absent (`none`, not zero); parsing any 36-byte buffer succeeds with
`feature_bitmap` present (the value read at 32..36) and both wait-time
fields absent. -/
theorem c5_version_skew_truncated_parse (buf : List Nat) :
    (buf.length = 32 →
      ∃ m, StatusMessage.parse buf = .ok m ∧ m.feature_bitmap = none ∧
        m.backlog_wait_time = none ∧ m.backlog_wait_time_actual = none) ∧
    (buf.length = 36 →
      ∃ m, StatusMessage.parse buf = .ok m ∧
        m.feature_bitmap = some (readU32At buf 32) ∧
        m.backlog_wait_time = none ∧ m.backlog_wait_time_actual = none) := by
  constructor
  · intro h
    refine ⟨⟨readU32At buf 0, readU32At buf 4, readU32At buf 8, readU32At buf 12,
      readU32At buf 16, readU32At buf 20, readU32At buf 24, readU32At buf 28,
      none, none, none⟩, ?_, rfl, rfl, rfl⟩
    unfold StatusMessage.parse
    rw [if_neg (by unfold MINIMAL_STATUS_MESSAGE_LEN; omega)]
    simp [StatusMessageBuffer.feature_bitmap,
      StatusMessageBuffer.backlog_wait_time,
      StatusMessageBuffer.backlog_wait_time_actual, h]
  · intro h
    refine ⟨⟨readU32At buf 0, readU32At buf 4, readU32At buf 8, readU32At buf 12,
      readU32At buf 16, readU32At buf 20, readU32At buf 24, readU32At buf 28,
      some (readU32At buf 32), none, none⟩, ?_, rfl, rfl, rfl⟩
    unfold StatusMessage.parse
    rw [if_neg (by unfold MINIMAL_STATUS_MESSAGE_LEN; omega)]
    simp [StatusMessageBuffer.feature_bitmap,
      StatusMessageBuffer.backlog_wait_time,
      StatusMessageBuffer.backlog_wait_time_actual, h]

/-- Closed witness for C5, at the all-zero 32- and 36-byte buffers. -/
theorem c5_version_skew_truncated_parse_witness :
    (∃ m, StatusMessage.parse (List.replicate 32 0) = .ok m ∧
      m.feature_bitmap = none ∧ m.backlog_wait_time = none ∧
      m.backlog_wait_time_actual = none) ∧
    (∃ m, StatusMessage.parse (List.replicate 36 0) = .ok m ∧
      m.feature_bitmap = some (readU32At (List.replicate 36 0) 32) ∧
      m.backlog_wait_time = none ∧ m.backlog_wait_time_actual = none) :=
  ⟨(c5_version_skew_truncated_parse (List.replicate 32 0)).1 (by decide),
    (c5_version_skew_truncated_parse (List.replicate 36 0)).2 (by decide)⟩

/-- C6.  `StatusMessage::parse` returns a decode error exactly when the
buffer is shorter than the 32-byte mandatory minimum (`DecodeResult` makes
the call all-or-nothing: on error no message value exists), and on success
all 8 mandatory fields are read unconditionally from their fixed
offsets. -/
theorem c6_parse_too_short_iff (buf : List Nat) :
    ((∃ e, StatusMessage.parse buf = .error e) ↔
      buf.length < MINIMAL_STATUS_MESSAGE_LEN) ∧
    (∀ m, StatusMessage.parse buf = .ok m →
      m.mask = readU32At buf 0 ∧ m.enabled = readU32At buf 4 ∧
      m.failure = readU32At buf 8 ∧ m.pid = readU32At buf 12 ∧
      m.rate_limiting = readU32At buf 16 ∧ m.backlog_limit = readU32At buf 20 ∧
      m.lost = readU32At buf 24 ∧ m.backlog = readU32At buf 28) := by
  unfold StatusMessage.parse
  by_cases h : buf.length < MINIMAL_STATUS_MESSAGE_LEN
  · rw [if_pos h]
    constructor
    · exact ⟨fun _ => h, fun _ => ⟨_, rfl⟩⟩
    · intro m hm
      simp at hm
  · rw [if_neg h]
    constructor
    · constructor
      · rintro ⟨e, he⟩
        simp at he
      · intro hl
        exact absurd hl h
    · intro m hm
      cases hm
      exact ⟨rfl, rfl, rfl, rfl, rfl, rfl, rfl, rfl⟩

/-- Closed witness for C6: a 31-byte buffer is rejected and a 33-byte
buffer parses with its mask read from bytes 0..4. -/
theorem c6_parse_too_short_iff_witness :
    (∃ e, StatusMessage.parse (List.replicate 31 0) = .error e) ∧
    ∀ m, StatusMessage.parse (List.replicate 33 7) = .ok m →
      m.mask = readU32At (List.replicate 33 7) 0 ∧
      m.enabled = readU32At (List.replicate 33 7) 4 ∧
      m.failure = readU32At (List.replicate 33 7) 8 ∧
      m.pid = readU32At (List.replicate 33 7) 12 ∧
      m.rate_limiting = readU32At (List.replicate 33 7) 16 ∧
      m.backlog_limit = readU32At (List.replicate 33 7) 20 ∧
      m.lost = readU32At (List.replicate 33 7) 24 ∧
      m.backlog = readU32At (List.replicate 33 7) 28 :=
  ⟨(c6_parse_too_short_iff (List.replicate 31 0)).1.mpr (by decide),
    (c6_parse_too_short_iff (List.replicate 33 7)).2⟩

/-- C7 counterexample.  The two wait-time fields share bytes 36..40, so for
a message with `backlog_wait_time = some 5` and
`backlog_wait_time_actual = none`, emitting changes byte 36 of the buffer
even though `backlog_wait_time_actual` is absent: the claimed per-field
frame condition ("the corresponding bytes are unchanged whenever that field
is absent") fails at this input. -/
theorem c7_absent_field_bytes_still_written :
    (⟨0, 0, 0, 0, 0, 0, 0, 0, none, some 5, none⟩ :
        StatusMessage).backlog_wait_time_actual = none ∧
    byteAt
      (StatusMessage.emit ⟨0, 0, 0, 0, 0, 0, 0, 0, none, some 5, none⟩
        (List.replicate 40 0)) 36 ≠
      byteAt (List.replicate 40 0) 36 := by
  constructor
  · rfl
  · decide

/-- C7 (amended).  `buffer_len` is always the 40-byte maximal layout, and
emit leaves the feature-bitmap bytes 32..36 unchanged when `feature_bitmap`
is absent, and the shared wait-time bytes 36..40 unchanged when both
`backlog_wait_time` and `backlog_wait_time_actual` are absent (the two
fields alias that range, so absence of both is what leaves it
untouched). -/
theorem c7_emit_frame_amended (m : StatusMessage) (buf : List Nat) :
    m.buffer_len = MAXIMAL_STATUS_MESSAGE_LEN ∧
    (m.feature_bitmap = none →
      ∀ j, 32 ≤ j → j < 36 → byteAt (m.emit buf) j = byteAt buf j) ∧
    (m.backlog_wait_time = none → m.backlog_wait_time_actual = none →
      ∀ j, 36 ≤ j → j < 40 → byteAt (m.emit buf) j = byteAt buf j) := by
  refine ⟨rfl, ?_, ?_⟩
  · intro hf j h32 h36
    unfold StatusMessage.emit
    rw [byteAt_emitWaitTimeActual_outside _ _ _ (by omega),
      byteAt_emitWaitTime_outside _ _ _ (by omega), emitFeature_none _ _ hf]
    exact byteAt_emitMandatory_outside m buf j h32
  · intro hw ha j h36 h40
    unfold StatusMessage.emit
    rw [emitWaitTimeActual_none _ _ ha, emitWaitTime_none _ _ hw,
      byteAt_emitFeature_outside _ _ _ (by omega)]
    exact byteAt_emitMandatory_outside m buf j (by omega)

/-- Closed witness for C7 (amended), at a message with only mandatory
fields and byte 33 resp. 37 of an all-sevens buffer. -/
theorem c7_emit_frame_amended_witness :
    (⟨1, 2, 3, 4, 5, 6, 7, 8, none, none, none⟩ : StatusMessage).buffer_len =
      MAXIMAL_STATUS_MESSAGE_LEN ∧
    byteAt
      (StatusMessage.emit ⟨1, 2, 3, 4, 5, 6, 7, 8, none, none, none⟩
        (List.replicate 40 7)) 33 = byteAt (List.replicate 40 7) 33 ∧
    byteAt
      (StatusMessage.emit ⟨1, 2, 3, 4, 5, 6, 7, 8, none, none, none⟩
        (List.replicate 40 7)) 37 = byteAt (List.replicate 40 7) 37 :=
  ⟨(c7_emit_frame_amended ⟨1, 2, 3, 4, 5, 6, 7, 8, none, none, none⟩
      (List.replicate 40 7)).1,
    (c7_emit_frame_amended ⟨1, 2, 3, 4, 5, 6, 7, 8, none, none, none⟩
      (List.replicate 40 7)).2.1 rfl 33 (by decide) (by decide),
    (c7_emit_frame_amended ⟨1, 2, 3, 4, 5, 6, 7, 8, none, none, none⟩
      (List.replicate 40 7)).2.2 rfl rfl 37 (by decide) (by decide)⟩

/-- C8.  Any parsed `StatusMessage` has `backlog_wait_time` present exactly
when `backlog_wait_time_actual` is present (both need a 40-byte buffer),
and the two are always equal because both are decoded from bytes 36..40: a
parsed message with two distinct present wait-time values is
unreachable. -/
theorem c8_parsed_wait_times_alias (buf : List Nat) (m : StatusMessage)
    (h : StatusMessage.parse buf = .ok m) :
    (m.backlog_wait_time.isSome ↔ m.backlog_wait_time_actual.isSome) ∧
    m.backlog_wait_time = m.backlog_wait_time_actual := by
  unfold StatusMessage.parse at h
  split at h
  · cases h
  · cases h
    exact ⟨Iff.rfl, rfl⟩

/-- Closed witness for C8, at the all-zero 40-byte buffer. -/
theorem c8_parsed_wait_times_alias_witness :
    (c8msg.backlog_wait_time.isSome ↔ c8msg.backlog_wait_time_actual.isSome) ∧
    c8msg.backlog_wait_time = c8msg.backlog_wait_time_actual :=
  c8_parsed_wait_times_alias (List.replicate 40 0) c8msg (by decide)

/-- C10.  On a buffer too short to reach the targeted optional field's end
offset, each guarded setter is a silent no-op: the buffer is returned
byte-for-byte unchanged, with no error, panic, or other indication. -/
theorem c10_short_optional_setters_are_noops (buf : List Nat) (v : Nat) :
    (buf.length < 36 → StatusMessageBuffer.set_feature_bitmap buf v = buf) ∧
    (buf.length < 40 → StatusMessageBuffer.set_backlog_wait_time buf v = buf) ∧
    (buf.length < 40 →
      StatusMessageBuffer.set_backlog_wait_time_actual buf v = buf) := by
  refine ⟨fun h => ?_, fun h => ?_, fun h => ?_⟩
  · rw [StatusMessageBuffer.set_feature_bitmap, if_neg (by omega)]
  · rw [StatusMessageBuffer.set_backlog_wait_time, if_neg (by omega)]
  · rw [StatusMessageBuffer.set_backlog_wait_time_actual, if_neg (by omega)]

/-- Closed witness for C10, at a 10-byte buffer. -/
theorem c10_short_optional_setters_are_noops_witness :
    StatusMessageBuffer.set_feature_bitmap (List.replicate 10 3) 7 =
      List.replicate 10 3 ∧
    StatusMessageBuffer.set_backlog_wait_time (List.replicate 10 3) 7 =
      List.replicate 10 3 ∧
    StatusMessageBuffer.set_backlog_wait_time_actual (List.replicate 10 3) 7 =
      List.replicate 10 3 :=
  ⟨(c10_short_optional_setters_are_noops (List.replicate 10 3) 7).1 (by decide),
    (c10_short_optional_setters_are_noops (List.replicate 10 3) 7).2.1 (by decide),
    (c10_short_optional_setters_are_noops (List.replicate 10 3) 7).2.2 (by decide)⟩

/-!
## Rule-codec lemmas and claims
-/

theorem writeU32Checked_eq_some {buf b : List Nat} {off v : Nat}
    (h : writeU32Checked buf off v = some b) :
    off + 4 ≤ buf.length ∧ b = writeU32At buf off v := by
  unfold writeU32Checked at h
  split at h
  · refine ⟨by assumption, ?_⟩
    injection h with h
    exact h.symm
  · cases h

theorem writeBytesChecked_eq_some {buf s b : List Nat} {off : Nat}
    (h : writeBytesChecked buf off s = some b) :
    off + s.length ≤ buf.length ∧ b = writeBytes buf off s := by
  unfold writeBytesChecked at h
  split at h
  · refine ⟨by assumption, ?_⟩
    injection h with h
    exact h.symm
  · cases h

theorem byteAt_writeU32Checked_outside {buf b : List Nat} {off v j : Nat}
    (h : writeU32Checked buf off v = some b) (hj : j < off ∨ off + 4 ≤ j) :
    byteAt b j = byteAt buf j := by
  obtain ⟨-, rfl⟩ := writeU32Checked_eq_some h
  exact byteAt_writeU32At_outside _ _ _ _ hj

/-- `set_str_field` advances the cursor by exactly the string's byte
length. -/
theorem set_str_field_cursor {buf : List Nat} {i c : Nat} {s : List Nat}
    {p : List Nat × Nat} (h : set_str_field buf i c s = some p) :
    p.2 = c + s.length := by
  unfold set_str_field at h
  rw [Option.bind_eq_some] at h
  obtain ⟨b, -, hb⟩ := h
  rw [Option.map_eq_some'] at hb
  obtain ⟨b2, -, hp⟩ := hb
  rw [← hp]

theorem emitIntArm_cursor {buf : List Nat} {i c code v : Nat}
    {p : List Nat × Nat} (h : emitIntArm buf i c code v = some p) :
    p.2 = c := by
  unfold emitIntArm at h
  rw [Option.bind_eq_some] at h
  obtain ⟨b, -, hb⟩ := h
  rw [Option.map_eq_some'] at hb
  obtain ⟨b2, -, hp⟩ := hb
  rw [← hp]

theorem emitStrArm_cursor {buf : List Nat} {i c code : Nat} {s : List Nat}
    {p : List Nat × Nat} (h : emitStrArm buf i c code s = some p) :
    p.2 = c + s.length := by
  unfold emitStrArm at h
  rw [Option.bind_eq_some] at h
  obtain ⟨b, -, hb⟩ := h
  exact set_str_field_cursor hb

/-- The per-field emit arm advances the cursor by exactly the field's
string contribution: the emission loop and
`compute_string_values_length` classify the same 13 variants as
string-valued. -/
theorem emitField_cursor {buf : List Nat} {i c : Nat} {f : RuleField}
    {p : List Nat × Nat} (h : emitField buf i c f = some p) :
    p.2 = c + stringLenOfField f := by
  cases f <;> simp only [emitField] at h <;> simp only [stringLenOfField] <;>
    first
      | exact emitStrArm_cursor h
      | simpa using emitIntArm_cursor h

/-- The emission loop's final cursor adds exactly
`computeStringValuesLength` of the fields it walks. -/
theorem emitFields_cursor {l : List (RuleField × Nat)} :
    ∀ {i : Nat} {buf : List Nat} {c : Nat} {p : List Nat × Nat},
      emitFields l i buf c = some p →
      p.2 = c + computeStringValuesLength l := by
  induction l with
  | nil =>
    intro i buf c p h
    injection h with h
    rw [← h]
    simp [computeStringValuesLength]
  | cons hd tl ih =>
    intro i buf c p h
    obtain ⟨f, fl⟩ := hd
    simp only [emitFields] at h
    rw [Option.bind_eq_some] at h
    obtain ⟨b, -, h⟩ := h
    rw [Option.bind_eq_some] at h
    obtain ⟨q, hq, h⟩ := h
    have h1 := ih h
    have h2 := emitField_cursor hq
    simp only [computeStringValuesLength]
    omega

theorem set_str_field_frame {buf : List Nat} {i c : Nat} {s : List Nat}
    {p : List Nat × Nat} (h : set_str_field buf i c s = some p) {j : Nat}
    (hj : j < 272) : byteAt p.1 j = byteAt buf j := by
  unfold set_str_field at h
  rw [Option.bind_eq_some] at h
  obtain ⟨b, hb, hm⟩ := h
  rw [Option.map_eq_some'] at hm
  obtain ⟨b2, hb2, hp⟩ := hm
  obtain ⟨-, rfl⟩ := writeBytesChecked_eq_some hb
  have h1 : byteAt p.1 j = byteAt b2 j := by rw [← hp]
  rw [h1, byteAt_writeU32Checked_outside hb2 (Or.inl (by omega))]
  exact byteAt_writeBytes_outside _ _ _ _
    (Or.inl (by unfold RULE_BUF_MIN_LEN AUDIT_MAX_FIELDS; omega))

theorem emitIntArm_frame {buf : List Nat} {i c code v : Nat}
    {p : List Nat × Nat} (h : emitIntArm buf i c code v = some p) {j : Nat}
    (hj : j < 272) : byteAt p.1 j = byteAt buf j := by
  unfold emitIntArm at h
  rw [Option.bind_eq_some] at h
  obtain ⟨b, hb, hm⟩ := h
  rw [Option.map_eq_some'] at hm
  obtain ⟨b2, hb2, hp⟩ := hm
  have h1 : byteAt p.1 j = byteAt b2 j := by rw [← hp]
  rw [h1, byteAt_writeU32Checked_outside hb2 (Or.inl (by omega))]
  exact byteAt_writeU32Checked_outside hb (Or.inl (by omega))

theorem emitStrArm_frame {buf : List Nat} {i c code : Nat} {s : List Nat}
    {p : List Nat × Nat} (h : emitStrArm buf i c code s = some p) {j : Nat}
    (hj : j < 272) : byteAt p.1 j = byteAt buf j := by
  unfold emitStrArm at h
  rw [Option.bind_eq_some] at h
  obtain ⟨b, hb, hs⟩ := h
  rw [set_str_field_frame hs hj]
  exact byteAt_writeU32Checked_outside hb (Or.inl (by omega))

/-- No per-field write of the emission loop touches the header, bitmask or
buflen bytes 0..272: every descriptor-slot offset is at least 272 and every
string-pool offset is at least RULE_BUF_MIN_LEN. -/
theorem emitField_frame {buf : List Nat} {i c : Nat} {f : RuleField}
    {p : List Nat × Nat} (h : emitField buf i c f = some p) {j : Nat}
    (hj : j < 272) : byteAt p.1 j = byteAt buf j := by
  cases f <;> simp only [emitField] at h <;>
    first
      | exact emitStrArm_frame h hj
      | exact emitIntArm_frame h hj

theorem emitFields_frame {l : List (RuleField × Nat)} :
    ∀ {i : Nat} {buf : List Nat} {c : Nat} {p : List Nat × Nat},
      emitFields l i buf c = some p →
      ∀ j, j < 272 → byteAt p.1 j = byteAt buf j := by
  induction l with
  | nil =>
    intro i buf c p h j hj
    injection h with h
    rw [← h]
  | cons hd tl ih =>
    intro i buf c p h j hj
    obtain ⟨f, fl⟩ := hd
    simp only [emitFields] at h
    rw [Option.bind_eq_some] at h
    obtain ⟨b, hb, h⟩ := h
    rw [Option.bind_eq_some] at h
    obtain ⟨q, hq, h⟩ := h
    rw [ih h j hj, emitField_frame hq hj]
    exact byteAt_writeU32Checked_outside hb (Or.inl (by omega))

theorem length_writeBytes (s buf : List Nat) (off : Nat) :
    (writeBytes buf off s).length = buf.length := by
  induction s generalizing buf off with
  | nil => rfl
  | cons b bs ih =>
    simp only [writeBytes]
    rw [ih, length_setByte]

theorem writeU32Checked_length {buf b : List Nat} {off v : Nat}
    (h : writeU32Checked buf off v = some b) : b.length = buf.length := by
  obtain ⟨-, rfl⟩ := writeU32Checked_eq_some h
  exact length_writeU32At _ _ _

theorem writeU32Checked_isSome (buf : List Nat) (off v : Nat)
    (h : off + 4 ≤ buf.length) :
    writeU32Checked buf off v = some (writeU32At buf off v) := by
  unfold writeU32Checked
  rw [if_pos h]

theorem set_str_field_length {buf : List Nat} {i c : Nat} {s : List Nat}
    {p : List Nat × Nat} (h : set_str_field buf i c s = some p) :
    p.1.length = buf.length := by
  unfold set_str_field at h
  rw [Option.bind_eq_some] at h
  obtain ⟨b, hb, hm⟩ := h
  rw [Option.map_eq_some'] at hm
  obtain ⟨b2, hb2, hp⟩ := hm
  obtain ⟨-, rfl⟩ := writeBytesChecked_eq_some hb
  have h1 : p.1 = b2 := by rw [← hp]
  rw [h1, writeU32Checked_length hb2, length_writeBytes]

theorem emitIntArm_length {buf : List Nat} {i c code v : Nat}
    {p : List Nat × Nat} (h : emitIntArm buf i c code v = some p) :
    p.1.length = buf.length := by
  unfold emitIntArm at h
  rw [Option.bind_eq_some] at h
  obtain ⟨b, hb, hm⟩ := h
  rw [Option.map_eq_some'] at hm
  obtain ⟨b2, hb2, hp⟩ := hm
  have h1 : p.1 = b2 := by rw [← hp]
  rw [h1, writeU32Checked_length hb2, writeU32Checked_length hb]

theorem emitStrArm_length {buf : List Nat} {i c code : Nat} {s : List Nat}
    {p : List Nat × Nat} (h : emitStrArm buf i c code s = some p) :
    p.1.length = buf.length := by
  unfold emitStrArm at h
  rw [Option.bind_eq_some] at h
  obtain ⟨b, hb, hs⟩ := h
  rw [set_str_field_length hs, writeU32Checked_length hb]

theorem emitField_length {buf : List Nat} {i c : Nat} {f : RuleField}
    {p : List Nat × Nat} (h : emitField buf i c f = some p) :
    p.1.length = buf.length := by
  cases f <;> simp only [emitField] at h <;>
    first
      | exact emitStrArm_length h
      | exact emitIntArm_length h

theorem emitSyscallsAux_length {ws : List Nat} :
    ∀ {i : Nat} {buf b : List Nat}, emitSyscallsAux ws i buf = some b →
      b.length = buf.length := by
  induction ws with
  | nil =>
    intro i buf b h
    injection h with h
    rw [← h]
  | cons w ws ih =>
    intro i buf b h
    simp only [emitSyscallsAux] at h
    split at h
    · rw [Option.bind_eq_some] at h
      obtain ⟨b1, hb1, h⟩ := h
      rw [ih h, writeU32Checked_length hb1]
    · cases h

/-- One integer arm always succeeds inside a rule buffer of at least the
fixed minimum length, returning the same-length buffer and an unchanged
cursor. -/
theorem emitIntArm_isSome (buf : List Nat) (i c code v : Nat)
    (hi : i < AUDIT_MAX_FIELDS) (hl : RULE_BUF_MIN_LEN ≤ buf.length) :
    ∃ p, emitIntArm buf i c code v = some p ∧ p.1.length = buf.length ∧
      p.2 = c := by
  have hM : AUDIT_MAX_FIELDS = 64 := rfl
  have hR : RULE_BUF_MIN_LEN = 1040 := rfl
  refine ⟨(writeU32At (writeU32At buf (272 + 12 * i) code) (276 + 12 * i) v, c),
    ?_, ?_, rfl⟩
  · unfold emitIntArm RuleBuffer.set_field RuleBuffer.set_value
    rw [writeU32Checked_isSome _ _ _ (by omega), Option.some_bind,
      writeU32Checked_isSome _ _ _ (by rw [length_writeU32At]; omega)]
    rfl
  · simp only [length_writeU32At]

/-- One string arm succeeds whenever the string fits after the cursor in
the pool region, returning the same-length buffer and a cursor advanced by
the string's byte length. -/
theorem emitStrArm_isSome (buf : List Nat) (i c code : Nat) (s : List Nat)
    (hi : i < AUDIT_MAX_FIELDS)
    (hl : RULE_BUF_MIN_LEN + c + s.length ≤ buf.length) :
    ∃ p, emitStrArm buf i c code s = some p ∧ p.1.length = buf.length ∧
      p.2 = c + s.length := by
  have hM : AUDIT_MAX_FIELDS = 64 := rfl
  have hR : RULE_BUF_MIN_LEN = 1040 := rfl
  refine ⟨(writeU32At
      (writeBytes (writeU32At buf (272 + 12 * i) code)
        (RULE_BUF_MIN_LEN + c) s) (276 + 12 * i) s.length, c + s.length),
    ?_, ?_, rfl⟩
  · unfold emitStrArm set_str_field writeBytesChecked RuleBuffer.set_field
      RuleBuffer.set_value
    rw [writeU32Checked_isSome _ _ _ (by omega), Option.some_bind,
      if_pos (by rw [length_writeU32At]; omega), Option.some_bind,
      writeU32Checked_isSome _ _ _
        (by rw [length_writeBytes, length_writeU32At]; omega)]
    rfl
  · simp only [length_writeU32At, length_writeBytes]

/-- Every per-field arm succeeds inside the bounds, advancing the cursor by
the field's string contribution. -/
theorem emitField_isSome (f : RuleField) (buf : List Nat) (i c : Nat)
    (hi : i < AUDIT_MAX_FIELDS)
    (hl : RULE_BUF_MIN_LEN + c + stringLenOfField f ≤ buf.length) :
    ∃ p, emitField buf i c f = some p ∧ p.1.length = buf.length ∧
      p.2 = c + stringLenOfField f := by
  cases f <;> simp only [emitField, stringLenOfField] at hl ⊢ <;>
    first
      | exact emitStrArm_isSome _ _ _ _ _ hi hl
      | (obtain ⟨p, h1, h2, h3⟩ := emitIntArm_isSome buf i c _ _ hi (by omega)
         exact ⟨p, h1, h2, by omega⟩)

/-- The emission loop succeeds whenever the field count (from its starting
index) stays within AUDIT_MAX_FIELDS and the remaining strings fit after
the cursor. -/
theorem emitFields_isSome (l : List (RuleField × Nat)) :
    ∀ (i : Nat) (buf : List Nat) (c : Nat),
      i + l.length ≤ AUDIT_MAX_FIELDS →
      RULE_BUF_MIN_LEN + c + computeStringValuesLength l ≤ buf.length →
      ∃ p, emitFields l i buf c = some p ∧ p.1.length = buf.length := by
  induction l with
  | nil => exact fun i buf c _ _ => ⟨(buf, c), rfl, rfl⟩
  | cons hd tl ih =>
    intro i buf c hcount hl
    obtain ⟨f, fl⟩ := hd
    have hM : AUDIT_MAX_FIELDS = 64 := rfl
    have hR : RULE_BUF_MIN_LEN = 1040 := rfl
    simp only [computeStringValuesLength] at hl
    simp only [List.length_cons] at hcount
    have hff : RuleBuffer.set_field_flags buf i fl =
        some (writeU32At buf (280 + 12 * i) fl) := by
      unfold RuleBuffer.set_field_flags
      exact writeU32Checked_isSome _ _ _ (by omega)
    obtain ⟨p, hp, hplen, hpc⟩ := emitField_isSome f
      (writeU32At buf (280 + 12 * i) fl) i c (by omega)
      (by rw [length_writeU32At]; omega)
    obtain ⟨q, hq, hqlen⟩ := ih (i + 1) p.1 p.2 (by omega)
      (by rw [hplen, length_writeU32At]; omega)
    refine ⟨q, ?_, ?_⟩
    · simp only [emitFields]
      rw [hff, Option.some_bind, hp, Option.some_bind, hq]
    · rw [hqlen, hplen, length_writeU32At]

/-- The syscall write loop succeeds whenever the words (from the starting
index) fit in the bitmask region and the buffer covers the region. -/
theorem emitSyscallsAux_isSome (ws : List Nat) :
    ∀ (i : Nat) (buf : List Nat),
      i + ws.length ≤ AUDIT_BITMASK_SIZE →
      12 + 4 * AUDIT_BITMASK_SIZE ≤ buf.length →
      ∃ b, emitSyscallsAux ws i buf = some b ∧ b.length = buf.length := by
  induction ws with
  | nil => exact fun i buf _ _ => ⟨buf, rfl, rfl⟩
  | cons w ws ih =>
    intro i buf hcount hl
    have hB : AUDIT_BITMASK_SIZE = 64 := rfl
    simp only [List.length_cons] at hcount
    obtain ⟨b, hb, hblen⟩ := ih (i + 1) (writeU32At buf (12 + 4 * i) w)
      (by omega) (by rw [length_writeU32At]; omega)
    refine ⟨b, ?_, by rw [hblen, length_writeU32At]⟩
    simp only [emitSyscallsAux]
    rw [if_pos (by omega), writeU32Checked_isSome _ _ _ (by omega),
      Option.some_bind, hb]

/-- `emit` completes whenever the field count and syscall word count are
within their capacities and the buffer is at least `buffer_len` long: in
particular, on the buffer the codec allocates for it. -/
theorem emitAux_isSome (m : RuleMessage) (buf : List Nat)
    (hf : m.fields.length ≤ AUDIT_MAX_FIELDS)
    (hs : m.syscalls.length ≤ AUDIT_BITMASK_SIZE)
    (hb : m.buffer_len ≤ buf.length) :
    ∃ p, m.emitAux buf = some p := by
  have hR : RULE_BUF_MIN_LEN = 1040 := rfl
  have hB : AUDIT_BITMASK_SIZE = 64 := rfl
  unfold RuleMessage.buffer_len at hb
  obtain ⟨b1, e1, l1⟩ : ∃ b, RuleBuffer.set_flags buf m.flags = some b ∧
      b.length = buf.length := by
    unfold RuleBuffer.set_flags
    exact ⟨_, writeU32Checked_isSome buf 0 m.flags (by omega),
      length_writeU32At _ _ _⟩
  obtain ⟨b2, e2, l2⟩ : ∃ b, RuleBuffer.set_action b1 m.action = some b ∧
      b.length = buf.length := by
    unfold RuleBuffer.set_action
    exact ⟨_, writeU32Checked_isSome b1 4 m.action (by omega),
      by rw [length_writeU32At, l1]⟩
  obtain ⟨b3, e3, l3⟩ : ∃ b,
      RuleBuffer.set_field_count b2 m.fields.length = some b ∧
      b.length = buf.length := by
    unfold RuleBuffer.set_field_count
    exact ⟨_, writeU32Checked_isSome b2 8 m.fields.length (by omega),
      by rw [length_writeU32At, l2]⟩
  obtain ⟨b4, e4, l4⟩ : ∃ b, emitSyscalls b3 m.syscalls = some b ∧
      b.length = buf.length := by
    unfold emitSyscalls
    rw [if_pos (by omega)]
    obtain ⟨b, hb', hl'⟩ := emitSyscallsAux_isSome m.syscalls 0 b3 (by omega)
      (by omega)
    exact ⟨b, hb', by rw [hl', l3]⟩
  obtain ⟨b5, e5, l5⟩ : ∃ b,
      RuleBuffer.set_buflen b4 (computeStringValuesLength m.fields) = some b ∧
      b.length = buf.length := by
    unfold RuleBuffer.set_buflen
    exact ⟨_, writeU32Checked_isSome b4 268 _ (by omega),
      by rw [length_writeU32At, l4]⟩
  obtain ⟨p, hp, -⟩ := emitFields_isSome m.fields 0 b5 0 (by omega) (by omega)
  refine ⟨p, ?_⟩
  unfold RuleMessage.emitAux
  rw [e1, Option.some_bind, e2, Option.some_bind, e3, Option.some_bind, e4,
    Option.some_bind, e5, Option.some_bind, hp]

/-- If the emission loop completes, every walked index `k` had its
descriptor-slot flags write (ending at `280 + 12(i+k) + 4`) inside the
buffer. -/
theorem emitFields_index_bound {l : List (RuleField × Nat)} :
    ∀ {i : Nat} {buf : List Nat} {c : Nat} {p : List Nat × Nat},
      emitFields l i buf c = some p →
      ∀ k, k < l.length → 280 + 12 * (i + k) + 4 ≤ buf.length := by
  induction l with
  | nil =>
    intro i buf c p _ k hk
    simp at hk
  | cons hd tl ih =>
    intro i buf c p h k hk
    obtain ⟨f, fl⟩ := hd
    simp only [emitFields] at h
    rw [Option.bind_eq_some] at h
    obtain ⟨b, hb, h⟩ := h
    rw [Option.bind_eq_some] at h
    obtain ⟨q, hq, h⟩ := h
    have hbl : b.length = buf.length := by
      unfold RuleBuffer.set_field_flags at hb
      exact writeU32Checked_length hb
    cases k with
    | zero =>
      unfold RuleBuffer.set_field_flags at hb
      obtain ⟨hbound, -⟩ := writeU32Checked_eq_some hb
      omega
    | succ k =>
      have := ih h k (by simpa using hk)
      rw [emitField_length hq, hbl] at this
      omega

/-- The buffer `emit` receives for `c2msgOver` is exactly 1040 bytes. -/
theorem c2msgOver_buffer_len : RuleMessage.buffer_len c2msgOver = 1040 := by
  decide

/-- Emitting the 65-field rule into its own computed buffer aborts: the
65th flags write would end at byte 1052 of a 1040-byte buffer. -/
theorem emit_c2msgOver_eq_none :
    RuleMessage.emit c2msgOver
      (List.replicate (RuleMessage.buffer_len c2msgOver) 0) = none := by
  cases h : RuleMessage.emit c2msgOver
      (List.replicate (RuleMessage.buffer_len c2msgOver) 0) with
  | none => rfl
  | some b =>
    exfalso
    unfold RuleMessage.emit at h
    rw [Option.map_eq_some'] at h
    obtain ⟨p, hp, -⟩ := h
    unfold RuleMessage.emitAux at hp
    rw [Option.bind_eq_some] at hp
    obtain ⟨b1, h1, hp⟩ := hp
    rw [Option.bind_eq_some] at hp
    obtain ⟨b2, h2, hp⟩ := hp
    rw [Option.bind_eq_some] at hp
    obtain ⟨b3, h3, hp⟩ := hp
    rw [Option.bind_eq_some] at hp
    obtain ⟨b4, h4, hp⟩ := hp
    rw [Option.bind_eq_some] at hp
    obtain ⟨b5, h5, hp⟩ := hp
    have hbound := emitFields_index_bound hp 64 (by decide)
    have l0 : (List.replicate (RuleMessage.buffer_len c2msgOver) 0).length =
        1040 := by
      rw [List.length_replicate, c2msgOver_buffer_len]
    have l1 : b1.length = 1040 := by
      unfold RuleBuffer.set_flags at h1
      rw [writeU32Checked_length h1, l0]
    have l2 : b2.length = 1040 := by
      unfold RuleBuffer.set_action at h2
      rw [writeU32Checked_length h2, l1]
    have l3 : b3.length = 1040 := by
      unfold RuleBuffer.set_field_count at h3
      rw [writeU32Checked_length h3, l2]
    have l4 : b4.length = 1040 := by
      unfold emitSyscalls at h4
      split at h4
      · rw [emitSyscallsAux_length h4, l3]
      · cases h4
    have l5 : b5.length = 1040 := by
      unfold RuleBuffer.set_buflen at h5
      rw [writeU32Checked_length h5, l4]
    rw [l5] at hbound
    omega

/-- C2 counterexample.  At one field above AUDIT_MAX_FIELDS the code does
not fail with a `TooManyFields` error value: `emit` has no field-count
check and no error channel at all, and the 65th descriptor write falls
outside the fixed-capacity descriptor table and past the computed buffer,
which in Rust is a slice-index panic (modelled `none`) occurring only after
the header and bitmask writes already succeeded. -/
theorem c2_over_max_emit_panics :
    RuleMessage.emit c2msgOver
      (List.replicate (RuleMessage.buffer_len c2msgOver) 0) = none :=
  emit_c2msgOver_eq_none

/-- C2 (amended).  Encoding a rule with field count exactly
AUDIT_MAX_FIELDS succeeds (every write lands inside the buffer computed by
`buffer_len`), but encoding one with a single extra field is not rejected
with a `TooManyFields` error: emit performs no field-count check, and the
extra descriptor write aborts as a slice-bounds panic (modelled `none`)
rather than returning an error value, after header and bitmask bytes were
already written. -/
theorem c2_field_count_boundary_amended :
    (RuleMessage.emit c2msgMax
        (List.replicate (RuleMessage.buffer_len c2msgMax) 0)).isSome = true ∧
    RuleMessage.emit c2msgOver
      (List.replicate (RuleMessage.buffer_len c2msgOver) 0) = none := by
  constructor
  · obtain ⟨p, hp⟩ := emitAux_isSome c2msgMax
      (List.replicate (RuleMessage.buffer_len c2msgMax) 0) (by decide)
      (by decide) (by rw [List.length_replicate])
    unfold RuleMessage.emit
    rw [hp]
    rfl
  · exact emit_c2msgOver_eq_none

/-- C3 counterexample.  For the two-integer-field rule `c3msg`,
`buffer_len` (1040 bytes: the fixed maximum-capacity layout) differs from
the spec's formula "header + bitmask + slot size × field count + string
bytes" (16 + 256 + 24 + 0 = 296 bytes): the descriptor-table term of
`buffer_len` does not grow with the field count. -/
theorem c3_buffer_len_not_per_field :
    RuleMessage.buffer_len c3msg ≠ specRuleBufferLen c3msg := by
  decide

theorem computeStringValuesLength_eq_sum (l : List (RuleField × Nat)) :
    computeStringValuesLength l = (l.map fun p => stringLenOfField p.1).sum := by
  induction l with
  | nil => rfl
  | cons hd tl ih =>
    obtain ⟨f, fl⟩ := hd
    simp [computeStringValuesLength, ih]

/-- C3 (amended).  For every rule, `buffer_len` is the fixed
RULE_BUF_MIN_LEN (header words + syscall bitmask + a full
AUDIT_MAX_FIELDS-capacity descriptor table) plus the total byte length of
the string-valued fields: the descriptor-table contribution is the
maximum-capacity constant, independent of how many fields are actually
present. -/
theorem c3_buffer_len_fixed_table_amended (m : RuleMessage) :
    m.buffer_len = 16 + 4 * AUDIT_BITMASK_SIZE + 12 * AUDIT_MAX_FIELDS +
      (m.fields.map fun p => stringLenOfField p.1).sum := by
  unfold RuleMessage.buffer_len RULE_BUF_MIN_LEN AUDIT_BITMASK_SIZE
    AUDIT_MAX_FIELDS
  rw [computeStringValuesLength_eq_sum]

set_option maxRecDepth 100000 in
set_option maxHeartbeats 4000000 in
/-- C4.  Emitting the rule [Filterkey("audit-wazuh"), Dir("/etc")] into its
computed buffer produces a string pool (the bytes after RULE_BUF_MIN_LEN)
of exactly 11 + 4 bytes holding the two strings concatenated in field order
with no delimiter, puts Filterkey's byte length 11 in descriptor slot 0's
value word (offset 276) and Dir's byte length 4 in slot 1's value word
(offset 288), and puts the aggregate length 15 in the buflen header word
(offset 268). -/
theorem c4_string_pool_integrity :
    (RuleMessage.emit c4msg
        (List.replicate (RuleMessage.buffer_len c4msg) 0)).map
      (fun b => (b.drop RULE_BUF_MIN_LEN, readU32At b 276, readU32At b 288,
        readU32At b 268)) =
    some (auditWazuhBytes ++ etcBytes, auditWazuhBytes.length,
      etcBytes.length, auditWazuhBytes.length + etcBytes.length) := by
  decide

/-- C9.  Whenever `emit` completes, the final string-pool cursor
accumulated by the `set_str_field` calls equals
`compute_string_values_length` (the loop and the length computation
classify the same 13 variants as string-valued), and the buflen header
word of the produced buffer holds that same value (truncated to 32 bits;
the loop's writes never touch the buflen bytes again). -/
theorem c9_cursor_equals_buflen (m : RuleMessage) (buffer b : List Nat)
    (c : Nat) (h : m.emitAux buffer = some (b, c)) :
    c = computeStringValuesLength m.fields ∧
    readU32At b 268 = computeStringValuesLength m.fields % 4294967296 := by
  unfold RuleMessage.emitAux at h
  rw [Option.bind_eq_some] at h
  obtain ⟨b1, h1, h⟩ := h
  rw [Option.bind_eq_some] at h
  obtain ⟨b2, h2, h⟩ := h
  rw [Option.bind_eq_some] at h
  obtain ⟨b3, h3, h⟩ := h
  rw [Option.bind_eq_some] at h
  obtain ⟨b4, h4, h⟩ := h
  rw [Option.bind_eq_some] at h
  obtain ⟨b5, h5, h⟩ := h
  unfold RuleBuffer.set_buflen at h5
  obtain ⟨hlen, hb5⟩ := writeU32Checked_eq_some h5
  have hc : c = 0 + computeStringValuesLength m.fields := emitFields_cursor h
  refine ⟨by omega, ?_⟩
  have hfr : ∀ j, j < 272 → byteAt b j = byteAt b5 j := fun j hj =>
    emitFields_frame h j hj
  unfold readU32At
  rw [hfr 268 (by omega), hfr (268 + 1) (by omega), hfr (268 + 2) (by omega),
    hfr (268 + 3) (by omega), hb5]
  have := readU32At_writeU32At_self b4 268
    (computeStringValuesLength m.fields) (by omega)
  simpa [readU32At] using this

set_option maxRecDepth 100000 in
/-- Closed witness for C9, at a one-string-field rule emitted into its
1043-byte buffer. -/
theorem c9_cursor_equals_buflen_witness :
    c9result.2 = computeStringValuesLength c9msg.fields ∧
    readU32At c9result.1 268 = computeStringValuesLength c9msg.fields %
      4294967296 :=
  c9_cursor_equals_buflen c9msg c9buffer c9result.1 c9result.2 (by
    obtain ⟨p, hp⟩ := emitAux_isSome c9msg c9buffer (by decide) (by decide)
      (by decide)
    unfold c9result
    rw [hp]
    simp)

end NetlinkAudit
